import Mathlib

/-!
Shallow embedding of the LtcArmory blockchain storage engine headers
(`cppForSwig/lmdb_wrapper.h`, `cppForSwig/BDM_mainthread.h`,
`cppForSwig/BlockDataManagerConfig.h`) together with the parts of the
stored-object layer and key schema the headers declare, modelled from the
specification where the bodies are outside the repository snapshot.

Machine integers are `Nat` with explicit bounds or `% 2^w`; byte strings are
`List Nat` whose elements are machine bytes.
-/

/-- Database deployment modes, from `BlockDataManagerConfig.h`. -/
inductive ARMORY_DB_TYPE where
  | ARMORY_DB_BARE
  | ARMORY_DB_LITE
  | ARMORY_DB_PARTIAL
  | ARMORY_DB_FULL
  | ARMORY_DB_SUPER
  | ARMORY_DB_WHATEVER
  deriving DecidableEq, Repr

/-- Prune modes, from `BlockDataManagerConfig.h`. -/
inductive DB_PRUNE_TYPE where
  | DB_PRUNE_ALL
  | DB_PRUNE_NONE
  | DB_PRUNE_WHATEVER
  deriving DecidableEq, Repr

/-- Modelled from the spec: the five logical sub-database selectors
(`DB_SELECT`), declared in headers outside `src/` (`lmdbpp.h` region) and
described in spec section 3.2. -/
inductive DB_SELECT where
  | HEADERS
  | BLKDATA
  | HISTORY
  | TXHINTS
  | SPENTNESS
  deriving DecidableEq, Repr

open ARMORY_DB_TYPE DB_SELECT

/-- Modelled from the spec: LMDB transaction open modes (`LMDB::Mode`),
declared outside `src/`; only read-only versus read-write matters here. -/
inductive LMDB_Mode where
  | ReadOnly
  | ReadWrite
  deriving DecidableEq, Repr

/-- An LMDB transaction as observable state: which environment it was opened
on (environments are identified abstractly by `Nat` handles) and its mode. -/
structure LMDBTransaction where
  env : Nat
  mode : LMDB_Mode
  deriving DecidableEq, Repr

/-- The state of `LMDBBlockDatabase` that the dispatch methods consult:
the configured mode `armoryDbType_`, the per-selector environment handles
`dbEnv_`, and the per-selector database handles `dbs_`
(`lmdb_wrapper.h` lines 658, 663-664). -/
structure LMDBBlockDatabase where
  armoryDbType_ : ARMORY_DB_TYPE
  dbEnv_ : DB_SELECT → Nat
  dbs_ : DB_SELECT → Nat

/-- `LMDBBlockDatabase::getDbSelect` (`lmdb_wrapper.h` lines 272-281):
HEADERS always maps to HEADERS; in Supernode mode every other selector
folds into BLKDATA; otherwise the selector is returned unchanged. -/
def LMDBBlockDatabase.getDbSelect (L : LMDBBlockDatabase) (dbs : DB_SELECT) :
    DB_SELECT :=
  if dbs = HEADERS then HEADERS
  else if L.armoryDbType_ = ARMORY_DB_SUPER then BLKDATA
  else dbs

/-- `LMDBBlockDatabase::beginDBTransaction` (`lmdb_wrapper.h` lines 261-268):
in Supernode mode the transaction is opened on `dbEnv_[BLKDATA]`
unconditionally; otherwise on `dbEnv_[db]`.  The C++ assigns into an
out-parameter; here the fresh transaction is returned. -/
def LMDBBlockDatabase.beginDBTransaction (L : LMDBBlockDatabase)
    (db : DB_SELECT) (mode : LMDB_Mode) : LMDBTransaction :=
  if L.armoryDbType_ = ARMORY_DB_SUPER then
    ⟨L.dbEnv_ BLKDATA, mode⟩
  else
    ⟨L.dbEnv_ db, mode⟩

/-- `LMDBBlockDatabase::getIterator` (`lmdb_wrapper.h` lines 296-299):
returns `dbs_[db].begin()`, an iterator over the store selected by the
literal argument.  The iterator is identified by the handle of the store
it ranges over. -/
def LMDBBlockDatabase.getIterator (L : LMDBBlockDatabase) (db : DB_SELECT) :
    Nat :=
  L.dbs_ db

/-- A `BinaryRefReader`: a byte slice plus a cursor position
(declared in `BinaryData.h`, outside `src/`; its `resetPosition` sets the
position back to 0). -/
structure BinaryRefReader where
  bdRef_ : List Nat
  pos_ : Nat
  deriving DecidableEq, Repr

/-- `BinaryRefReader::resetPosition`: position back to 0, data untouched. -/
def BinaryRefReader.resetPosition (r : BinaryRefReader) : BinaryRefReader :=
  { r with pos_ := 0 }

/-- The state of `LDBIter` (`lmdb_wrapper.h` lines 162-171): the underlying
cursor `iter_` (abstracted as the cursor position handle), the materialized
current key and value, the two lazy readers over them, and the dirty flag. -/
structure LDBIter where
  iter_ : Nat
  currKey_ : List Nat
  currValue_ : List Nat
  currKeyReader_ : BinaryRefReader
  currValueReader_ : BinaryRefReader
  isDirty_ : Bool
  deriving DecidableEq, Repr

/-- `LDBIter::resetReaders` (`lmdb_wrapper.h` line 160):
`currKeyReader_.resetPosition(); currValueReader_.resetPosition();`. -/
def LDBIter.resetReaders (it : LDBIter) : LDBIter :=
  { it with
    currKeyReader_ := it.currKeyReader_.resetPosition
    currValueReader_ := it.currValueReader_.resetPosition }

/-- A concrete Supernode-mode database state whose HEADERS and BLKDATA
environments are distinct handles, for counterexample evaluation. -/
def superDbExample : LMDBBlockDatabase where
  armoryDbType_ := ARMORY_DB_SUPER
  dbEnv_ := fun db => match db with
    | HEADERS => 0
    | _ => 1
  dbs_ := fun db => match db with
    | HEADERS => 0
    | BLKDATA => 1
    | HISTORY => 2
    | TXHINTS => 3
    | SPENTNESS => 4

/-! ## Binary codec

Modelled from the spec (section 4.1): paired reader/writer primitives over a
byte slice, fixed-width integers with explicit endianness, Bitcoin
compact-size varints, and length-prefixed byte strings.  The writer side
mirrors `BinaryWriter::put_uintX_t`, the reader side
`BinaryRefReader::get_uintX_t`; those classes live outside `src/`. -/

/-- Little-endian digits of a number, fixed width of k bytes. -/
def toLE : Nat → Nat → List Nat
  | 0, _ => []
  | k + 1, n => n % 256 :: toLE k (n / 256)

/-- Number denoted by a little-endian byte list. -/
def fromLE : List Nat → Nat
  | [] => 0
  | b :: bs => b + 256 * fromLE bs

/-- Big-endian digits of a number, fixed width of k bytes
(most significant first). -/
def toBE : Nat → Nat → List Nat
  | 0, _ => []
  | k + 1, n => (n / 256 ^ k) % 256 :: toBE k n

/-- Read a fixed number of raw bytes; fails on truncated input. -/
def getBytes (k : Nat) (s : List Nat) : Option (List Nat × List Nat) :=
  if k ≤ s.length then some (s.take k, s.drop k) else none

/-- Read a k-byte little-endian unsigned integer. -/
def getLE (k : Nat) (s : List Nat) : Option (Nat × List Nat) :=
  match getBytes k s with
  | some (bs, rest) => some (fromLE bs, rest)
  | none => none

/-- Write one byte. -/
def putU8 (n : Nat) : List Nat := [n % 256]

/-- Read one byte. -/
def getU8 : List Nat → Option (Nat × List Nat)
  | [] => none
  | b :: rest => some (b, rest)

/-- Write a boolean as one byte, 0 or 1. -/
def putBool (b : Bool) : List Nat := [if b then 1 else 0]

/-- Read a boolean byte; any value other than 0 or 1 is rejected. -/
def getBool : List Nat → Option (Bool × List Nat)
  | 0 :: rest => some (false, rest)
  | 1 :: rest => some (true, rest)
  | _ => none

/-- Bitcoin compact-size varint, writer side. -/
def putVarInt (n : Nat) : List Nat :=
  if n < 253 then [n]
  else if n < 2 ^ 16 then 253 :: toLE 2 n
  else if n < 2 ^ 32 then 254 :: toLE 4 n
  else 255 :: toLE 8 n

/-- Bitcoin compact-size varint, reader side. -/
def getVarInt : List Nat → Option (Nat × List Nat)
  | [] => none
  | b :: rest =>
    if b < 253 then some (b, rest)
    else if b = 253 then getLE 2 rest
    else if b = 254 then getLE 4 rest
    else getLE 8 rest

/-- Length-prefixed byte string, writer side. -/
def putVarBytes (bs : List Nat) : List Nat := putVarInt bs.length ++ bs

/-- Length-prefixed byte string, reader side. -/
def getVarBytes (s : List Nat) : Option (List Nat × List Nat) :=
  match getVarInt s with
  | some (n, rest) => getBytes n rest
  | none => none

/-- Serialize a list elementwise, concatenated. -/
def putList {α : Type} (f : α → List Nat) : List α → List Nat
  | [] => []
  | x :: xs => f x ++ putList f xs

/-- Serialize a list with a leading varint element count. -/
def putCountedList {α : Type} (f : α → List Nat) (xs : List α) : List Nat :=
  putVarInt xs.length ++ putList f xs

/-- Parse exactly k consecutive elements. -/
def getList {α : Type} (p : List Nat → Option (α × List Nat)) :
    Nat → List Nat → Option (List α × List Nat)
  | 0, s => some ([], s)
  | k + 1, s =>
    match p s with
    | some (x, s1) =>
      match getList p k s1 with
      | some (xs, s2) => some (x :: xs, s2)
      | none => none
    | none => none

/-- Parse a varint element count followed by that many elements. -/
def getCountedList {α : Type} (p : List Nat → Option (α × List Nat))
    (s : List Nat) : Option (List α × List Nat) :=
  match getVarInt s with
  | some (n, rest) => getList p n rest
  | none => none

/-- Write an optional 32-byte hash: flag byte then the hash when present. -/
def putOptHash : Option (List Nat) → List Nat
  | none => [0]
  | some h => 1 :: h

/-- Read an optional 32-byte hash. -/
def getOptHash : List Nat → Option (Option (List Nat) × List Nat)
  | 0 :: rest => some (none, rest)
  | 1 :: rest =>
    match getBytes 32 rest with
    | some (h, r) => some (some h, r)
    | none => none
  | _ => none

/-! ## Key schema -/

/-- Strict lexicographic order on byte strings, as `memcmp`-style key
comparison by the underlying ordered store. -/
def bytesLt : List Nat → List Nat → Bool
  | [], [] => false
  | [], _ :: _ => true
  | _ :: _, [] => false
  | a :: x, b :: y => decide (a < b) || (a == b && bytesLt x y)

/-- Lexicographic order on composite coordinates
(height, dupID, txIdx, txOutIdx). -/
def coordLt (a b : Nat × Nat × Nat × Nat) : Bool :=
  decide (a.1 < b.1) ||
    (a.1 == b.1 &&
      (decide (a.2.1 < b.2.1) ||
        (a.2.1 == b.2.1 &&
          (decide (a.2.2.1 < b.2.2.1) ||
            (a.2.2.1 == b.2.2.1 && decide (a.2.2.2 < b.2.2.2))))))

/-- Modelled from the spec: `heightAndDupToHgtx(uint32_t, uint8_t)`, the
key-schema helper named in the schema comment of `lmdb_wrapper.h`
(lines 85-94) whose body lives outside `src/`.  HGTX is the 4-byte
big-endian composite `(h:24 | d:8)`: the height is shifted left one byte,
the dupID occupies the low byte, and the result is a 32-bit word. -/
def heightAndDupToHgtx (h d : Nat) : List Nat :=
  toBE 4 ((h * 256 + d) % 2 ^ 32)

/-- Modelled from the spec: the composite big-endian key
`HGTX ‖ txIdx_BE16 ‖ txOutIdx_BE16` (`DBKey8`) for an output slot;
txIndex and txOutIndex are serialized big-endian per the schema comment
(`lmdb_wrapper.h` lines 90-94). -/
def encodeKey (h d i o : Nat) : List Nat :=
  heightAndDupToHgtx h d ++ toBE 2 i ++ toBE 2 o

/-! ## Stored-object layer

Modelled from the spec (section 3.3): the nine stored entities declared in
`StoredBlockObj.h`, which is outside `src/`; `lmdb_wrapper.h` declares their
put/get accessors (lines 424-569).  Field lists follow the spec's entity
descriptions; serialized integers in values are little-endian, embedded key
fragments (`DBKey6`, `DBKey8`, `hgtX`) stay big-endian raw bytes, byte
strings are compact-size length-prefixed, and maps are count-prefixed lists
of (index, entry) pairs. -/

/-- Modelled from the spec: `StoredDBInfo`
`{magic, topBlockHgt, topBlockHash, armoryDbType, pruneType,
armoryVersion}` with the persisted layout of spec section 6. -/
structure StoredDBInfo where
  magic : List Nat
  armoryDbType : Nat
  pruneType : Nat
  armoryVersion : Nat
  topBlockHgt : Nat
  topBlockHash : List Nat
  deriving DecidableEq, Repr

def wfStoredDBInfo (x : StoredDBInfo) : Bool :=
  x.magic.length == 4 && x.armoryDbType < 256 && x.pruneType < 256 &&
    x.armoryVersion < 256 ^ 4 && x.topBlockHgt < 256 ^ 4 &&
    x.topBlockHash.length == 32

/-- Spec section 6 layout: magic(4) then dbType(1), pruneType(1),
armoryVersion(4 LE), topBlockHgt(4 LE), topBlockHash(32). -/
def serStoredDBInfo (x : StoredDBInfo) : List Nat :=
  x.magic ++ putU8 x.armoryDbType ++ putU8 x.pruneType ++
    toLE 4 x.armoryVersion ++ toLE 4 x.topBlockHgt ++ x.topBlockHash

def parseStoredDBInfo (s : List Nat) : Option (StoredDBInfo × List Nat) :=
  match getBytes 4 s with
  | none => none
  | some (m, s1) =>
  match getU8 s1 with
  | none => none
  | some (t, s2) =>
  match getU8 s2 with
  | none => none
  | some (p, s3) =>
  match getLE 4 s3 with
  | none => none
  | some (v, s4) =>
  match getLE 4 s4 with
  | none => none
  | some (hgt, s5) =>
  match getBytes 32 s5 with
  | none => none
  | some (hsh, s6) => some (⟨m, t, p, v, hgt, hsh⟩, s6)

/-- Modelled from the spec: tx-output spentness
`{Unknown, Unspent, Spent(by DBKey8)}`. -/
inductive TXOUT_SPENTNESS where
  | Unknown
  | Unspent
  | Spent (byKey : List Nat)
  deriving DecidableEq, Repr

def wfSpentness : TXOUT_SPENTNESS → Bool
  | .Unknown => true
  | .Unspent => true
  | .Spent k => k.length == 8

def serSpentness : TXOUT_SPENTNESS → List Nat
  | .Unknown => [0]
  | .Unspent => [1]
  | .Spent k => 2 :: k

def parseSpentness : List Nat → Option (TXOUT_SPENTNESS × List Nat)
  | 0 :: rest => some (.Unknown, rest)
  | 1 :: rest => some (.Unspent, rest)
  | 2 :: rest =>
    match getBytes 8 rest with
    | some (k, r) => some (.Spent k, r)
    | none => none
  | _ => none

/-- Modelled from the spec: `StoredTxOut`
`{dbKey8, value, script, spentness, isCoinbase, parentHash?}`. -/
structure StoredTxOut where
  dbKey8 : List Nat
  value : Nat
  script : List Nat
  spentness : TXOUT_SPENTNESS
  isCoinbase : Bool
  parentHash : Option (List Nat)
  deriving DecidableEq, Repr

def wfStoredTxOut (x : StoredTxOut) : Bool :=
  x.dbKey8.length == 8 && x.value < 256 ^ 8 && x.script.length < 256 ^ 8 &&
    wfSpentness x.spentness &&
    (match x.parentHash with
     | none => true
     | some h => h.length == 32)

def serStoredTxOut (x : StoredTxOut) : List Nat :=
  x.dbKey8 ++ toLE 8 x.value ++ putVarBytes x.script ++
    serSpentness x.spentness ++ putBool x.isCoinbase ++
    putOptHash x.parentHash

def parseStoredTxOut (s : List Nat) : Option (StoredTxOut × List Nat) :=
  match getBytes 8 s with
  | none => none
  | some (k8, s1) =>
  match getLE 8 s1 with
  | none => none
  | some (v, s2) =>
  match getVarBytes s2 with
  | none => none
  | some (sc, s3) =>
  match parseSpentness s3 with
  | none => none
  | some (sp, s4) =>
  match getBool s4 with
  | none => none
  | some (cb, s5) =>
  match getOptHash s5 with
  | none => none
  | some (ph, s6) => some (⟨k8, v, sc, sp, cb, ph⟩, s6)

/-- Modelled from the spec: `StoredTx`
`{hash, dbKey6, rawTx, numTxOut, fragmented, stxoMap}`; the stxoMap maps a
16-bit txOutIdx to its `StoredTxOut`. -/
structure StoredTx where
  hash : List Nat
  dbKey6 : List Nat
  rawTx : List Nat
  numTxOut : Nat
  fragmented : Bool
  stxoMap : List (Nat × StoredTxOut)
  deriving DecidableEq, Repr

def wfStxoEntry (p : Nat × StoredTxOut) : Bool :=
  p.1 < 256 ^ 2 && wfStoredTxOut p.2

def wfStoredTx (x : StoredTx) : Bool :=
  x.hash.length == 32 && x.dbKey6.length == 6 &&
    x.rawTx.length < 256 ^ 8 && x.numTxOut < 256 ^ 4 &&
    x.stxoMap.length < 256 ^ 8 && x.stxoMap.all wfStxoEntry

def serStxoEntry (p : Nat × StoredTxOut) : List Nat :=
  toLE 2 p.1 ++ serStoredTxOut p.2

def parseStxoEntry (s : List Nat) : Option ((Nat × StoredTxOut) × List Nat) :=
  match getLE 2 s with
  | none => none
  | some (o, s1) =>
  match parseStoredTxOut s1 with
  | none => none
  | some (t, s2) => some ((o, t), s2)

def serStoredTx (x : StoredTx) : List Nat :=
  x.hash ++ x.dbKey6 ++ putVarBytes x.rawTx ++ toLE 4 x.numTxOut ++
    putBool x.fragmented ++ putCountedList serStxoEntry x.stxoMap

def parseStoredTx (s : List Nat) : Option (StoredTx × List Nat) :=
  match getBytes 32 s with
  | none => none
  | some (h, s1) =>
  match getBytes 6 s1 with
  | none => none
  | some (k6, s2) =>
  match getVarBytes s2 with
  | none => none
  | some (rw, s3) =>
  match getLE 4 s3 with
  | none => none
  | some (nto, s4) =>
  match getBool s4 with
  | none => none
  | some (fr, s5) =>
  match getCountedList parseStxoEntry s5 with
  | none => none
  | some (m, s6) => some (⟨h, k6, rw, nto, fr, m⟩, s6)

/-- Modelled from the spec: `StoredHeader`
`{hash, rawHeader(80B), height, dupID, numTx, numBytes, merkle?,
blockAppliedToDB, txMap}`; the txMap maps a 16-bit txIdx to its
`StoredTx`. -/
structure StoredHeader where
  hash : List Nat
  rawHeader : List Nat
  height : Nat
  dupID : Nat
  numTx : Nat
  numBytes : Nat
  merkle : List Nat
  blockAppliedToDB : Bool
  txMap : List (Nat × StoredTx)
  deriving DecidableEq, Repr

def wfTxEntry (p : Nat × StoredTx) : Bool :=
  p.1 < 256 ^ 2 && wfStoredTx p.2

def wfStoredHeader (x : StoredHeader) : Bool :=
  x.hash.length == 32 && x.rawHeader.length == 80 && x.height < 256 ^ 4 &&
    x.dupID < 256 && x.numTx < 256 ^ 4 && x.numBytes < 256 ^ 4 &&
    x.merkle.length < 256 ^ 8 && x.txMap.length < 256 ^ 8 &&
    x.txMap.all wfTxEntry

def serTxEntry (p : Nat × StoredTx) : List Nat :=
  toLE 2 p.1 ++ serStoredTx p.2

def parseTxEntry (s : List Nat) : Option ((Nat × StoredTx) × List Nat) :=
  match getLE 2 s with
  | none => none
  | some (i, s1) =>
  match parseStoredTx s1 with
  | none => none
  | some (t, s2) => some ((i, t), s2)

def serStoredHeader (x : StoredHeader) : List Nat :=
  x.hash ++ x.rawHeader ++ toLE 4 x.height ++ putU8 x.dupID ++
    toLE 4 x.numTx ++ toLE 4 x.numBytes ++ putVarBytes x.merkle ++
    putBool x.blockAppliedToDB ++ putCountedList serTxEntry x.txMap

def parseStoredHeader (s : List Nat) : Option (StoredHeader × List Nat) :=
  match getBytes 32 s with
  | none => none
  | some (h, s1) =>
  match getBytes 80 s1 with
  | none => none
  | some (rh, s2) =>
  match getLE 4 s2 with
  | none => none
  | some (hgt, s3) =>
  match getU8 s3 with
  | none => none
  | some (d, s4) =>
  match getLE 4 s4 with
  | none => none
  | some (nt, s5) =>
  match getLE 4 s5 with
  | none => none
  | some (nb, s6) =>
  match getVarBytes s6 with
  | none => none
  | some (mk, s7) =>
  match getBool s7 with
  | none => none
  | some (ap, s8) =>
  match getCountedList parseTxEntry s8 with
  | none => none
  | some (m, s9) => some (⟨h, rh, hgt, d, nt, nb, mk, ap, m⟩, s9)

/-- Modelled from the spec: the kind tag of a txio entry in a sub-history,
`{Received, Spent, Multisig, FromSelf}`. -/
inductive TXIO_KIND where
  | Received
  | Spent
  | Multisig
  | FromSelf
  deriving DecidableEq, Repr

def serTxioKind : TXIO_KIND → List Nat
  | .Received => [0]
  | .Spent => [1]
  | .Multisig => [2]
  | .FromSelf => [3]

def parseTxioKind : List Nat → Option (TXIO_KIND × List Nat)
  | 0 :: rest => some (.Received, rest)
  | 1 :: rest => some (.Spent, rest)
  | 2 :: rest => some (.Multisig, rest)
  | 3 :: rest => some (.FromSelf, rest)
  | _ => none

/-- Modelled from the spec: one element of a sub-history's txioSet:
`(DBKey8, kind, value)`. -/
structure TxioEntry where
  dbKey8 : List Nat
  kind : TXIO_KIND
  value : Nat
  deriving DecidableEq, Repr

def wfTxioEntry (e : TxioEntry) : Bool :=
  e.dbKey8.length == 8 && e.value < 256 ^ 8

def serTxioEntry (e : TxioEntry) : List Nat :=
  e.dbKey8 ++ serTxioKind e.kind ++ toLE 8 e.value

def parseTxioEntry (s : List Nat) : Option (TxioEntry × List Nat) :=
  match getBytes 8 s with
  | none => none
  | some (k8, s1) =>
  match parseTxioKind s1 with
  | none => none
  | some (kd, s2) =>
  match getLE 8 s2 with
  | none => none
  | some (v, s3) => some (⟨k8, kd, v⟩, s3)

/-- Modelled from the spec: `StoredSubHistory` (per scrAddr+hgtX):
`{txioSet}`. -/
structure StoredSubHistory where
  txioSet : List TxioEntry
  deriving DecidableEq, Repr

def wfStoredSubHistory (x : StoredSubHistory) : Bool :=
  x.txioSet.length < 256 ^ 8 && x.txioSet.all wfTxioEntry

def serStoredSubHistory (x : StoredSubHistory) : List Nat :=
  putCountedList serTxioEntry x.txioSet

def parseStoredSubHistory (s : List Nat) :
    Option (StoredSubHistory × List Nat) :=
  match getCountedList parseTxioEntry s with
  | none => none
  | some (ts, s1) => some (⟨ts⟩, s1)

/-- Modelled from the spec: `StoredScriptHistory` (per scrAddr):
`{alreadyScannedUpToBlk, totalTxioCount, totalUnspent, useMultipleEntries,
subHistMap}`; the subHistMap maps a 4-byte hgtX key fragment to its
`StoredSubHistory` shard. -/
structure StoredScriptHistory where
  alreadyScannedUpToBlk : Nat
  totalTxioCount : Nat
  totalUnspent : Nat
  useMultipleEntries : Bool
  subHistMap : List (List Nat × StoredSubHistory)
  deriving DecidableEq, Repr

def wfSubHistEntry (p : List Nat × StoredSubHistory) : Bool :=
  p.1.length == 4 && wfStoredSubHistory p.2

def wfStoredScriptHistory (x : StoredScriptHistory) : Bool :=
  x.alreadyScannedUpToBlk < 256 ^ 4 && x.totalTxioCount < 256 ^ 8 &&
    x.totalUnspent < 256 ^ 8 && x.subHistMap.length < 256 ^ 8 &&
    x.subHistMap.all wfSubHistEntry

def serSubHistEntry (p : List Nat × StoredSubHistory) : List Nat :=
  p.1 ++ serStoredSubHistory p.2

def parseSubHistEntry (s : List Nat) :
    Option ((List Nat × StoredSubHistory) × List Nat) :=
  match getBytes 4 s with
  | none => none
  | some (hx, s1) =>
  match parseStoredSubHistory s1 with
  | none => none
  | some (sub, s2) => some ((hx, sub), s2)

def serStoredScriptHistory (x : StoredScriptHistory) : List Nat :=
  toLE 4 x.alreadyScannedUpToBlk ++ toLE 8 x.totalTxioCount ++
    toLE 8 x.totalUnspent ++ putBool x.useMultipleEntries ++
    putCountedList serSubHistEntry x.subHistMap

def parseStoredScriptHistory (s : List Nat) :
    Option (StoredScriptHistory × List Nat) :=
  match getLE 4 s with
  | none => none
  | some (sc, s1) =>
  match getLE 8 s1 with
  | none => none
  | some (tc, s2) =>
  match getLE 8 s2 with
  | none => none
  | some (tu, s3) =>
  match getBool s3 with
  | none => none
  | some (um, s4) =>
  match getCountedList parseSubHistEntry s4 with
  | none => none
  | some (m, s5) => some (⟨sc, tc, tu, um, m⟩, s5)

/-- Modelled from the spec: `StoredUndoData`
`{height, dupID, [stxoRemoved], [outputUndoneSpentness]}`. -/
structure StoredUndoData where
  height : Nat
  dupID : Nat
  stxoRemoved : List StoredTxOut
  outputUndoneSpentness : List (List Nat)
  deriving DecidableEq, Repr

def wfStoredUndoData (x : StoredUndoData) : Bool :=
  x.height < 256 ^ 4 && x.dupID < 256 && x.stxoRemoved.length < 256 ^ 8 &&
    x.stxoRemoved.all wfStoredTxOut &&
    x.outputUndoneSpentness.length < 256 ^ 8 &&
    x.outputUndoneSpentness.all (fun k => k.length == 8)

def serKey8 (k : List Nat) : List Nat := k

def parseKey8 (s : List Nat) : Option (List Nat × List Nat) :=
  getBytes 8 s

def serStoredUndoData (x : StoredUndoData) : List Nat :=
  toLE 4 x.height ++ putU8 x.dupID ++
    putCountedList serStoredTxOut x.stxoRemoved ++
    putCountedList serKey8 x.outputUndoneSpentness

def parseStoredUndoData (s : List Nat) :
    Option (StoredUndoData × List Nat) :=
  match getLE 4 s with
  | none => none
  | some (h, s1) =>
  match getU8 s1 with
  | none => none
  | some (d, s2) =>
  match getCountedList parseStoredTxOut s2 with
  | none => none
  | some (rm, s3) =>
  match getCountedList parseKey8 s3 with
  | none => none
  | some (un, s4) => some (⟨h, d, rm, un⟩, s4)

/-- Modelled from the spec: `StoredTxHints`
`{hashPrefix(4B), [DBKey6...], preferredIndex}`
(accessors declared at `lmdb_wrapper.h` lines 564-566). -/
structure StoredTxHints where
  hashPref : List Nat
  dbKeyList : List (List Nat)
  preferredIdx : Nat
  deriving DecidableEq, Repr

def wfStoredTxHints (x : StoredTxHints) : Bool :=
  x.hashPref.length == 4 && x.dbKeyList.length < 256 ^ 8 &&
    x.dbKeyList.all (fun k => k.length == 6) && x.preferredIdx < 256 ^ 4

def serKey6 (k : List Nat) : List Nat := k

def parseKey6 (s : List Nat) : Option (List Nat × List Nat) :=
  getBytes 6 s

def serStoredTxHints (x : StoredTxHints) : List Nat :=
  x.hashPref ++ putCountedList serKey6 x.dbKeyList ++ toLE 4 x.preferredIdx

def parseStoredTxHints (s : List Nat) :
    Option (StoredTxHints × List Nat) :=
  match getBytes 4 s with
  | none => none
  | some (hp, s1) =>
  match getCountedList parseKey6 s1 with
  | none => none
  | some (ks, s2) =>
  match getLE 4 s2 with
  | none => none
  | some (pi, s3) => some (⟨hp, ks, pi⟩, s3)

/-- Modelled from the spec: `StoredHeadHgtList`
`{height, [(dupID, headerHash)]}`
(accessors declared at `lmdb_wrapper.h` lines 568-569). -/
structure StoredHeadHgtList where
  height : Nat
  dupAndHashList : List (Nat × List Nat)
  deriving DecidableEq, Repr

def wfDupHashEntry (p : Nat × List Nat) : Bool :=
  p.1 < 256 && p.2.length == 32

def wfStoredHeadHgtList (x : StoredHeadHgtList) : Bool :=
  x.height < 256 ^ 4 && x.dupAndHashList.length < 256 ^ 8 &&
    x.dupAndHashList.all wfDupHashEntry

def serDupHashEntry (p : Nat × List Nat) : List Nat :=
  putU8 p.1 ++ p.2

def parseDupHashEntry (s : List Nat) :
    Option ((Nat × List Nat) × List Nat) :=
  match getU8 s with
  | none => none
  | some (d, s1) =>
  match getBytes 32 s1 with
  | none => none
  | some (h, s2) => some ((d, h), s2)

def serStoredHeadHgtList (x : StoredHeadHgtList) : List Nat :=
  toLE 4 x.height ++ putCountedList serDupHashEntry x.dupAndHashList

def parseStoredHeadHgtList (s : List Nat) :
    Option (StoredHeadHgtList × List Nat) :=
  match getLE 4 s with
  | none => none
  | some (h, s1) =>
  match getCountedList parseDupHashEntry s1 with
  | none => none
  | some (l, s2) => some (⟨h, l⟩, s2)

/-! ## Lookup paths: TXHINTS, bare headers, valid-dupID table

`getStoredTx_byHash`, `getHintsForTxHash`, `getBareHeader`,
`getValidDupIDForHeight` and `setValidDupIDForHeight` are declared in
`lmdb_wrapper.h` (lines 409-432, 478-483, 617) with bodies outside `src/`;
their behavior is modelled from the spec (sections 4.3.3, 4.3.4, 7). -/

/-- First-match association-list lookup. -/
def lookupAssoc {α β : Type} [DecidableEq α] :
    List (α × β) → α → Option β
  | [], _ => none
  | (k, v) :: rest, a => if k = a then some v else lookupAssoc rest a

/-- The database state the tx-by-hash lookup path consults: the TXHINTS
store (4-byte hash prefix to candidate DBKey6 list) and the tx records
reachable by DBKey6. -/
structure TxLookupDB where
  txhints : List (List Nat × List (List Nat))
  txstore : List (List Nat × StoredTx)

/-- Modelled from the spec: `getHintsForTxHash` reads the 4-byte prefix
bucket for the hash; an absent bucket yields the empty candidate list. -/
def getHintsForTxHash (db : TxLookupDB) (txHash : List Nat) :
    List (List Nat) :=
  (lookupAssoc db.txhints (txHash.take 4)).getD []

/-- Walk the candidate DBKey6 list: fetch each tx, compare the full hash,
first match wins; candidates that fetch nothing are skipped. -/
def findTxAmongHints (db : TxLookupDB) (txHash : List Nat) :
    List (List Nat) → Option (List Nat × StoredTx)
  | [] => none
  | k :: ks =>
    match lookupAssoc db.txstore k with
    | some stx =>
      if stx.hash = txHash then some (k, stx)
      else findTxAmongHints db txHash ks
    | none => findTxAmongHints db txHash ks

/-- Modelled from the spec: `getStoredTx_byHash` looks up via TXHINTS:
read the 4-byte prefix bucket, walk candidate DBKey6s, fetch each tx,
compare full hash; first match wins. -/
def getStoredTx_byHash (db : TxLookupDB) (txHash : List Nat) :
    Option (List Nat × StoredTx) :=
  findTxAmongHints db txHash (getHintsForTxHash db txHash)

/-- The C++ out-parameter calling convention of `getStoredTx_byHash`
(`lmdb_wrapper.h` lines 478-480): on a miss the method returns false and the
caller-supplied `StoredTx` and `DBkey` out-arguments keep their prior
state. -/
def getStoredTx_byHash_out (db : TxLookupDB) (txHash : List Nat)
    (stx0 : StoredTx) (key0 : List Nat) : Bool × StoredTx × List Nat :=
  match getStoredTx_byHash db txHash with
  | some (k, stx) => (true, stx, k)
  | none => (false, stx0, key0)

/-- The HEADERS-side state `getBareHeader` consults: bare headers keyed by
(height, dupID). -/
structure HeadersDB where
  headersByHgtDup : List ((Nat × Nat) × StoredHeader)

/-- Modelled from the spec: `getBareHeader(sbh, blkHgt, dup)`
(`lmdb_wrapper.h` line 430) returns a found flag; a `MissingEntry` is
recovered locally, returning false and leaving the out-argument `sbh`
in its prior state. -/
def getBareHeader (db : HeadersDB) (sbh : StoredHeader)
    (blkHgt dup : Nat) : Bool × StoredHeader :=
  match lookupAssoc db.headersByHgtDup (blkHgt, dup) with
  | some h => (true, h)
  | none => (false, sbh)

/-- The duplicate-ID table state: the in-memory cache `validDupByHeight_`
(`lmdb_wrapper.h` line 678) and its persistent HEADHGT mirror. -/
structure DupIDState where
  validDupByHeight_ : List (Nat × Nat)
  headHgtMirror : List (Nat × Nat)
  deriving DecidableEq, Repr

/-- Modelled from the spec: `getValidDupIDForHeight` returns the cached
byte, or queries the persistent mirror on a cache miss. -/
def getValidDupIDForHeight (s : DupIDState) (h : Nat) : Option Nat :=
  match lookupAssoc s.validDupByHeight_ h with
  | some d => some d
  | none => lookupAssoc s.headHgtMirror h

/-- Modelled from the spec: `setValidDupIDForHeight(h, d, overwrite)`
updates the cache and the mirror; when overwrite is false and a value
already exists for the height, the call is a no-op. -/
def setValidDupIDForHeight (s : DupIDState) (h d : Nat)
    (overwrite : Bool) : DupIDState :=
  if !overwrite && (getValidDupIDForHeight s h).isSome then s
  else ⟨(h, d) :: s.validDupByHeight_, (h, d) :: s.headHgtMirror⟩

/-! ## Concrete states and values for witnesses and counterexamples -/

/-- A concrete stored output with every optional part populated. -/
def stxoEx : StoredTxOut :=
  ⟨List.replicate 8 1, 50000, [118, 169, 20], .Spent (List.replicate 8 2),
    true, some (List.replicate 32 3)⟩

/-- A concrete stored tx embedding `stxoEx`. -/
def stxEx : StoredTx :=
  ⟨List.replicate 32 4, List.replicate 6 5, [1, 0, 0, 0], 1, true,
    [(0, stxoEx)]⟩

/-- A concrete stored header embedding `stxEx`. -/
def shdrEx : StoredHeader :=
  ⟨List.replicate 32 6, List.replicate 80 7, 123456, 1, 2, 285,
    List.replicate 32 8, true, [(0, stxEx)]⟩

/-- A concrete sub-history shard. -/
def subEx : StoredSubHistory :=
  ⟨[⟨List.replicate 8 9, .Received, 1000⟩]⟩

/-- A concrete script-history summary embedding `subEx`. -/
def sshEx : StoredScriptHistory :=
  ⟨100, 2, 1000, true, [([0, 1, 226, 64], subEx)]⟩

/-- A concrete undo-data record. -/
def sudEx : StoredUndoData :=
  ⟨1000, 0, [stxoEx], [List.replicate 8 10]⟩

/-- A concrete tx-hints bucket. -/
def hintsEx : StoredTxHints :=
  ⟨[9, 9, 9, 9], [[0, 0, 0, 0, 0, 1], [0, 0, 0, 0, 0, 2]], 1⟩

/-- A concrete head-height list with two dupIDs. -/
def hhlEx : StoredHeadHgtList :=
  ⟨3, [(0, List.replicate 32 11), (1, List.replicate 32 12)]⟩

/-- A concrete DB-info record. -/
def sdbiEx : StoredDBInfo :=
  ⟨[249, 190, 180, 217], 4, 1, 1, 400000, List.replicate 32 13⟩

/-- Two full tx hashes sharing their first four bytes. -/
def collA : List Nat := [9, 9, 9, 9] ++ List.replicate 28 1

/-- Second hash of the colliding pair. -/
def collB : List Nat := [9, 9, 9, 9] ++ List.replicate 28 2

/-- Tx record with hash `collA`. -/
def stxCollA : StoredTx := ⟨collA, [0, 0, 0, 0, 0, 1], [], 0, false, []⟩

/-- Tx record with hash `collB`. -/
def stxCollB : StoredTx := ⟨collB, [0, 0, 0, 0, 0, 2], [], 0, false, []⟩

/-- A tx-lookup state with one TXHINTS bucket holding both colliding
candidates, `collA`'s key first. -/
def txDbEx : TxLookupDB :=
  ⟨[([9, 9, 9, 9], [[0, 0, 0, 0, 0, 1], [0, 0, 0, 0, 0, 2]])],
    [([0, 0, 0, 0, 0, 1], stxCollA), ([0, 0, 0, 0, 0, 2], stxCollB)]⟩

/-- A headers store holding `shdrEx` at (height 3, dupID 0). -/
def hdbEx : HeadersDB := ⟨[((3, 0), shdrEx)]⟩

/-- A dupID table with height 100 already recorded in cache and mirror. -/
def dupEx : DupIDState := ⟨[(100, 1)], [(100, 1), (99, 0)]⟩

/-! ## Helper lemmas -/

theorem take_append_self {α : Type} (a b : List α) :
    (a ++ b).take a.length = a := by
  induction a with
  | nil => simp
  | cons x xs ih => simp [ih]

theorem drop_append_self {α : Type} (a b : List α) :
    (a ++ b).drop a.length = b := by
  induction a with
  | nil => simp
  | cons x xs ih => simp [ih]

theorem getBytes_append (k : Nat) (bs r : List Nat) (h : bs.length = k) :
    getBytes k (bs ++ r) = some (bs, r) := by
  subst h
  have hle : bs.length ≤ (bs ++ r).length := by
    simp [List.length_append]
  simp [getBytes, hle, take_append_self, drop_append_self]

theorem toLE_length (k n : Nat) : (toLE k n).length = k := by
  induction k generalizing n with
  | zero => rfl
  | succ k ih => simp [toLE, ih]

theorem fromLE_toLE (k n : Nat) (h : n < 256 ^ k) :
    fromLE (toLE k n) = n := by
  induction k generalizing n with
  | zero =>
    have : n = 0 := by
      have := h
      simpa using this
    simp [this, toLE, fromLE]
  | succ k ih =>
    have hdiv : n / 256 < 256 ^ k := by
      rw [Nat.div_lt_iff_lt_mul (by norm_num : 0 < 256)]
      calc n < 256 ^ (k + 1) := h
        _ = 256 ^ k * 256 := by ring
    simp [toLE, fromLE, ih _ hdiv]
    omega

theorem getLE_append (k n : Nat) (r : List Nat) (h : n < 256 ^ k) :
    getLE k (toLE k n ++ r) = some (n, r) := by
  simp [getLE, getBytes_append k (toLE k n) r (toLE_length k n),
    fromLE_toLE k n h]

theorem getU8_append (n : Nat) (r : List Nat) (h : n < 256) :
    getU8 (putU8 n ++ r) = some (n, r) := by
  simp [putU8, getU8, Nat.mod_eq_of_lt h]

theorem getBool_append (b : Bool) (r : List Nat) :
    getBool (putBool b ++ r) = some (b, r) := by
  cases b <;> simp [putBool, getBool]

theorem getVarInt_append (n : Nat) (r : List Nat) (h : n < 256 ^ 8) :
    getVarInt (putVarInt n ++ r) = some (n, r) := by
  rw [putVarInt]
  by_cases h1 : n < 253
  · simp [h1, getVarInt]
  · rw [if_neg h1]
    by_cases h2 : n < 2 ^ 16
    · rw [if_pos h2]
      simp [getVarInt, getLE_append 2 n r (by norm_num at h2 ⊢; omega)]
    · rw [if_neg h2]
      by_cases h3 : n < 2 ^ 32
      · rw [if_pos h3]
        simp [getVarInt, getLE_append 4 n r (by norm_num at h3 ⊢; omega)]
      · rw [if_neg h3]
        simp [getVarInt, getLE_append 8 n r (by norm_num at h ⊢; omega)]

theorem getVarBytes_append (bs r : List Nat) (h : bs.length < 256 ^ 8) :
    getVarBytes (putVarBytes bs ++ r) = some (bs, r) := by
  rw [putVarBytes, List.append_assoc]
  simp [getVarBytes, getVarInt_append bs.length (bs ++ r) h,
    getBytes_append bs.length bs r rfl]

theorem getOptHash_append_none (r : List Nat) :
    getOptHash (putOptHash none ++ r) = some (none, r) := by
  simp [putOptHash, getOptHash]

theorem getOptHash_append_some (x : List Nat) (r : List Nat)
    (h : x.length = 32) :
    getOptHash (putOptHash (some x) ++ r) = some (some x, r) := by
  simp only [putOptHash, List.cons_append, getOptHash]
  rw [getBytes_append 32 x r h]

theorem getList_append {α : Type} (p : List Nat → Option (α × List Nat))
    (f : α → List Nat) (xs : List α) (r : List Nat)
    (h : ∀ x ∈ xs, ∀ r', p (f x ++ r') = some (x, r')) :
    getList p xs.length (putList f xs ++ r) = some (xs, r) := by
  induction xs with
  | nil => simp [putList, getList]
  | cons x rest ih =>
    have hx := h x (by simp)
    have hrest : ∀ y ∈ rest, ∀ r', p (f y ++ r') = some (y, r') := by
      intro y hy r'
      exact h y (by simp [hy]) r'
    simp only [putList, List.append_assoc, List.length_cons, getList,
      hx (putList f rest ++ r), ih hrest]

theorem getCountedList_append {α : Type}
    (p : List Nat → Option (α × List Nat)) (f : α → List Nat)
    (xs : List α) (r : List Nat) (hlen : xs.length < 256 ^ 8)
    (h : ∀ x ∈ xs, ∀ r', p (f x ++ r') = some (x, r')) :
    getCountedList p (putCountedList f xs ++ r) = some (xs, r) := by
  rw [putCountedList, List.append_assoc]
  simp [getCountedList, getVarInt_append xs.length _ hlen,
    getList_append p f xs r h]

theorem lookupAssoc_mem {α β : Type} [DecidableEq α]
    (l : List (α × β)) (a : α) (b : β) (h : lookupAssoc l a = some b) :
    (a, b) ∈ l := by
  induction l with
  | nil => simp [lookupAssoc] at h
  | cons p rest ih =>
    obtain ⟨k, v⟩ := p
    by_cases hk : k = a
    · subst hk
      simp [lookupAssoc] at h
      simp [h]
    · simp [lookupAssoc, hk] at h
      simp [ih h]

theorem parseSpentness_append (sp : TXOUT_SPENTNESS) (r : List Nat)
    (h : wfSpentness sp = true) :
    parseSpentness (serSpentness sp ++ r) = some (sp, r) := by
  match sp with
  | .Unknown => simp [serSpentness, parseSpentness]
  | .Unspent => simp [serSpentness, parseSpentness]
  | .Spent k =>
    simp only [wfSpentness, beq_iff_eq] at h
    simp only [serSpentness, List.cons_append, parseSpentness]
    rw [getBytes_append 8 k r h]

theorem parseStoredTxOut_append (x : StoredTxOut) (r : List Nat)
    (h : wfStoredTxOut x = true) :
    parseStoredTxOut (serStoredTxOut x ++ r) = some (x, r) := by
  obtain ⟨k8, v, sc, sp, cb, ph⟩ := x
  simp only [wfStoredTxOut, Bool.and_eq_true, beq_iff_eq,
    decide_eq_true_eq] at h
  obtain ⟨⟨⟨⟨h1, h2⟩, h3⟩, h4⟩, h5⟩ := h
  cases ph with
  | none =>
    simp only [serStoredTxOut, List.append_assoc, parseStoredTxOut,
      getBytes_append _ _ _ h1, getLE_append _ _ _ h2,
      getVarBytes_append _ _ h3, parseSpentness_append _ _ h4,
      getBool_append, getOptHash_append_none]
  | some hh =>
    have h5' : hh.length = 32 := by simpa using h5
    simp only [serStoredTxOut, List.append_assoc, parseStoredTxOut,
      getBytes_append _ _ _ h1, getLE_append _ _ _ h2,
      getVarBytes_append _ _ h3, parseSpentness_append _ _ h4,
      getBool_append, getOptHash_append_some _ _ h5']

theorem parseStoredDBInfo_append (x : StoredDBInfo) (r : List Nat)
    (h : wfStoredDBInfo x = true) :
    parseStoredDBInfo (serStoredDBInfo x ++ r) = some (x, r) := by
  obtain ⟨m, t, p, v, hgt, hsh⟩ := x
  simp only [wfStoredDBInfo, Bool.and_eq_true, beq_iff_eq,
    decide_eq_true_eq] at h
  obtain ⟨⟨⟨⟨⟨h1, h2⟩, h3⟩, h4⟩, h5⟩, h6⟩ := h
  simp only [serStoredDBInfo, List.append_assoc, parseStoredDBInfo,
    getBytes_append _ _ _ h1, getU8_append _ _ h2, getU8_append _ _ h3,
    getLE_append _ _ _ h4, getLE_append _ _ _ h5, getBytes_append _ _ _ h6]

theorem parseStxoEntry_append (p : Nat × StoredTxOut) (r : List Nat)
    (h : wfStxoEntry p = true) :
    parseStxoEntry (serStxoEntry p ++ r) = some (p, r) := by
  obtain ⟨o, t⟩ := p
  simp only [wfStxoEntry, Bool.and_eq_true, decide_eq_true_eq] at h
  obtain ⟨h1, h2⟩ := h
  simp only [serStxoEntry, List.append_assoc, parseStxoEntry,
    getLE_append _ _ _ h1, parseStoredTxOut_append _ _ h2]

theorem parseStoredTx_append (x : StoredTx) (r : List Nat)
    (h : wfStoredTx x = true) :
    parseStoredTx (serStoredTx x ++ r) = some (x, r) := by
  obtain ⟨hs, k6, rw, nto, fr, m⟩ := x
  simp only [wfStoredTx, Bool.and_eq_true, beq_iff_eq,
    decide_eq_true_eq, List.all_eq_true] at h
  obtain ⟨⟨⟨⟨⟨h1, h2⟩, h3⟩, h4⟩, h5⟩, h6⟩ := h
  have hel : ∀ p ∈ m, ∀ r',
      parseStxoEntry (serStxoEntry p ++ r') = some (p, r') := by
    intro p hp r'
    exact parseStxoEntry_append p r' (h6 p hp)
  simp only [serStoredTx, List.append_assoc, parseStoredTx,
    getBytes_append _ _ _ h1, getBytes_append _ _ _ h2,
    getVarBytes_append _ _ h3, getLE_append _ _ _ h4, getBool_append,
    getCountedList_append _ _ _ _ (by omega) hel]

theorem parseTxEntry_append (p : Nat × StoredTx) (r : List Nat)
    (h : wfTxEntry p = true) :
    parseTxEntry (serTxEntry p ++ r) = some (p, r) := by
  obtain ⟨i, t⟩ := p
  simp only [wfTxEntry, Bool.and_eq_true, decide_eq_true_eq] at h
  obtain ⟨h1, h2⟩ := h
  simp only [serTxEntry, List.append_assoc, parseTxEntry,
    getLE_append _ _ _ h1, parseStoredTx_append _ _ h2]

theorem parseStoredHeader_append (x : StoredHeader) (r : List Nat)
    (h : wfStoredHeader x = true) :
    parseStoredHeader (serStoredHeader x ++ r) = some (x, r) := by
  obtain ⟨hs, rh, hgt, d, nt, nb, mk, ap, m⟩ := x
  simp only [wfStoredHeader, Bool.and_eq_true, beq_iff_eq,
    decide_eq_true_eq, List.all_eq_true] at h
  obtain ⟨⟨⟨⟨⟨⟨⟨⟨h1, h2⟩, h3⟩, h4⟩, h5⟩, h6⟩, h7⟩, h8⟩, h9⟩ := h
  have hel : ∀ p ∈ m, ∀ r',
      parseTxEntry (serTxEntry p ++ r') = some (p, r') := by
    intro p hp r'
    exact parseTxEntry_append p r' (h9 p hp)
  simp only [serStoredHeader, List.append_assoc, parseStoredHeader,
    getBytes_append _ _ _ h1, getBytes_append _ _ _ h2,
    getLE_append _ _ _ h3, getU8_append _ _ h4, getLE_append _ _ _ h5,
    getLE_append _ _ _ h6, getVarBytes_append _ _ h7, getBool_append,
    getCountedList_append _ _ _ _ (by omega) hel]

theorem parseTxioKind_append (k : TXIO_KIND) (r : List Nat) :
    parseTxioKind (serTxioKind k ++ r) = some (k, r) := by
  cases k <;> simp [serTxioKind, parseTxioKind]

theorem parseTxioEntry_append (e : TxioEntry) (r : List Nat)
    (h : wfTxioEntry e = true) :
    parseTxioEntry (serTxioEntry e ++ r) = some (e, r) := by
  obtain ⟨k8, kd, v⟩ := e
  simp only [wfTxioEntry, Bool.and_eq_true, beq_iff_eq,
    decide_eq_true_eq] at h
  obtain ⟨h1, h2⟩ := h
  simp only [serTxioEntry, List.append_assoc, parseTxioEntry,
    getBytes_append _ _ _ h1, parseTxioKind_append,
    getLE_append _ _ _ h2]

theorem parseStoredSubHistory_append (x : StoredSubHistory) (r : List Nat)
    (h : wfStoredSubHistory x = true) :
    parseStoredSubHistory (serStoredSubHistory x ++ r) = some (x, r) := by
  obtain ⟨ts⟩ := x
  simp only [wfStoredSubHistory, Bool.and_eq_true, decide_eq_true_eq,
    List.all_eq_true] at h
  obtain ⟨h1, h2⟩ := h
  have hel : ∀ e ∈ ts, ∀ r',
      parseTxioEntry (serTxioEntry e ++ r') = some (e, r') := by
    intro e he r'
    exact parseTxioEntry_append e r' (h2 e he)
  simp only [serStoredSubHistory, parseStoredSubHistory,
    getCountedList_append _ _ _ _ (by omega) hel]

theorem parseSubHistEntry_append (p : List Nat × StoredSubHistory)
    (r : List Nat) (h : wfSubHistEntry p = true) :
    parseSubHistEntry (serSubHistEntry p ++ r) = some (p, r) := by
  obtain ⟨hx, sub⟩ := p
  simp only [wfSubHistEntry, Bool.and_eq_true, beq_iff_eq] at h
  obtain ⟨h1, h2⟩ := h
  simp only [serSubHistEntry, List.append_assoc, parseSubHistEntry,
    getBytes_append _ _ _ h1, parseStoredSubHistory_append _ _ h2]

theorem parseStoredScriptHistory_append (x : StoredScriptHistory)
    (r : List Nat) (h : wfStoredScriptHistory x = true) :
    parseStoredScriptHistory (serStoredScriptHistory x ++ r) =
      some (x, r) := by
  obtain ⟨sc, tc, tu, um, m⟩ := x
  simp only [wfStoredScriptHistory, Bool.and_eq_true,
    decide_eq_true_eq, List.all_eq_true] at h
  obtain ⟨⟨⟨⟨h1, h2⟩, h3⟩, h4⟩, h5⟩ := h
  have hel : ∀ p ∈ m, ∀ r',
      parseSubHistEntry (serSubHistEntry p ++ r') = some (p, r') := by
    intro p hp r'
    exact parseSubHistEntry_append p r' (h5 p hp)
  simp only [serStoredScriptHistory, List.append_assoc,
    parseStoredScriptHistory, getLE_append _ _ _ h1,
    getLE_append _ _ _ h2, getLE_append _ _ _ h3, getBool_append,
    getCountedList_append _ _ _ _ (by omega) hel]

theorem parseKey8_append (k : List Nat) (r : List Nat)
    (h : k.length = 8) :
    parseKey8 (serKey8 k ++ r) = some (k, r) := by
  simp only [serKey8, parseKey8, getBytes_append _ _ _ h]

theorem parseStoredUndoData_append (x : StoredUndoData) (r : List Nat)
    (h : wfStoredUndoData x = true) :
    parseStoredUndoData (serStoredUndoData x ++ r) = some (x, r) := by
  obtain ⟨hgt, d, rm, un⟩ := x
  simp only [wfStoredUndoData, Bool.and_eq_true, beq_iff_eq,
    decide_eq_true_eq, List.all_eq_true] at h
  obtain ⟨⟨⟨⟨⟨h1, h2⟩, h3⟩, h4⟩, h5⟩, h6⟩ := h
  have hel1 : ∀ t ∈ rm, ∀ r',
      parseStoredTxOut (serStoredTxOut t ++ r') = some (t, r') := by
    intro t ht r'
    exact parseStoredTxOut_append t r' (h4 t ht)
  have hel2 : ∀ k ∈ un, ∀ r',
      parseKey8 (serKey8 k ++ r') = some (k, r') := by
    intro k hk r'
    exact parseKey8_append k r' (h6 k hk)
  simp only [serStoredUndoData, List.append_assoc, parseStoredUndoData,
    getLE_append _ _ _ h1, getU8_append _ _ h2,
    getCountedList_append _ _ _ _ (by omega) hel1,
    getCountedList_append _ _ _ _ (by omega) hel2]

theorem parseKey6_append (k : List Nat) (r : List Nat)
    (h : k.length = 6) :
    parseKey6 (serKey6 k ++ r) = some (k, r) := by
  simp only [serKey6, parseKey6, getBytes_append _ _ _ h]

theorem parseStoredTxHints_append (x : StoredTxHints) (r : List Nat)
    (h : wfStoredTxHints x = true) :
    parseStoredTxHints (serStoredTxHints x ++ r) = some (x, r) := by
  obtain ⟨hp, ks, pr⟩ := x
  simp only [wfStoredTxHints, Bool.and_eq_true, beq_iff_eq,
    decide_eq_true_eq, List.all_eq_true] at h
  obtain ⟨⟨⟨h1, h2⟩, h3⟩, h4⟩ := h
  have hel : ∀ k ∈ ks, ∀ r',
      parseKey6 (serKey6 k ++ r') = some (k, r') := by
    intro k hk r'
    exact parseKey6_append k r' (by simpa using h3 k hk)
  simp only [serStoredTxHints, List.append_assoc, parseStoredTxHints,
    getBytes_append _ _ _ h1,
    getCountedList_append _ _ _ _ (by omega) hel,
    getLE_append _ _ _ h4]

theorem parseDupHashEntry_append (p : Nat × List Nat) (r : List Nat)
    (h : wfDupHashEntry p = true) :
    parseDupHashEntry (serDupHashEntry p ++ r) = some (p, r) := by
  obtain ⟨d, hh⟩ := p
  simp only [wfDupHashEntry, Bool.and_eq_true, beq_iff_eq,
    decide_eq_true_eq] at h
  obtain ⟨h1, h2⟩ := h
  simp only [serDupHashEntry, List.append_assoc, parseDupHashEntry,
    getU8_append _ _ h1, getBytes_append _ _ _ h2]

theorem parseStoredHeadHgtList_append (x : StoredHeadHgtList)
    (r : List Nat) (h : wfStoredHeadHgtList x = true) :
    parseStoredHeadHgtList (serStoredHeadHgtList x ++ r) =
      some (x, r) := by
  obtain ⟨hgt, l⟩ := x
  simp only [wfStoredHeadHgtList, Bool.and_eq_true,
    decide_eq_true_eq, List.all_eq_true] at h
  obtain ⟨⟨h1, h2⟩, h3⟩ := h
  have hel : ∀ p ∈ l, ∀ r',
      parseDupHashEntry (serDupHashEntry p ++ r') = some (p, r') := by
    intro p hp r'
    exact parseDupHashEntry_append p r' (h3 p hp)
  simp only [serStoredHeadHgtList, List.append_assoc,
    parseStoredHeadHgtList, getLE_append _ _ _ h1,
    getCountedList_append _ _ _ _ (by omega) hel]

theorem toBE_length (k n : Nat) : (toBE k n).length = k := by
  induction k generalizing n with
  | zero => rfl
  | succ k ih => simp [toBE, ih]

theorem toBE_mod (k n : Nat) : toBE k (n % 256 ^ k) = toBE k n := by
  induction k generalizing n with
  | zero => rfl
  | succ k ih =>
    simp only [toBE]
    have hhd : n % 256 ^ (k + 1) / 256 ^ k % 256 = n / 256 ^ k % 256 := by
      rw [pow_succ, Nat.mod_mul_right_div_self]
      omega
    have htl : toBE k (n % 256 ^ (k + 1)) = toBE k n :=
      calc toBE k (n % 256 ^ (k + 1))
          = toBE k (n % 256 ^ (k + 1) % 256 ^ k) := (ih _).symm
        _ = toBE k (n % 256 ^ k) := by
            rw [Nat.mod_mod_of_dvd n (pow_dvd_pow 256 (Nat.le_succ k))]
        _ = toBE k n := ih n
    rw [hhd, htl]

theorem toBE_append (k j a b : Nat) (ha : a < 256 ^ j) :
    toBE k b ++ toBE j a = toBE (k + j) (b * 256 ^ j + a) := by
  induction k with
  | zero =>
    simp only [toBE, List.nil_append, Nat.zero_add]
    rw [← toBE_mod j (b * 256 ^ j + a), Nat.mul_comm b,
      Nat.mul_add_mod, Nat.mod_eq_of_lt ha]
  | succ k ih =>
    have hdiv : (b * 256 ^ j + a) / 256 ^ (k + j) = b / 256 ^ k := by
      have h1 : (b * 256 ^ j + a) / 256 ^ j = b := by
        rw [Nat.add_comm, Nat.add_mul_div_right _ _ (Nat.pos_pow_of_pos j (by norm_num)),
          Nat.div_eq_of_lt ha, Nat.zero_add]
      have h2 : (256 : Nat) ^ (k + j) = 256 ^ j * 256 ^ k := by
        rw [← pow_add, Nat.add_comm]
      rw [h2, ← Nat.div_div_eq_div_mul, h1]
    have hidx : k + 1 + j = (k + j) + 1 := by omega
    rw [hidx]
    simp only [toBE, List.cons_append, ih, hdiv]

theorem bytesLt_toBE (k m n : Nat) (hm : m < 256 ^ k) (hn : n < 256 ^ k) :
    (bytesLt (toBE k m) (toBE k n) = true) ↔ m < n := by
  induction k generalizing m n with
  | zero =>
    have hm0 : m = 0 := by simpa using hm
    have hn0 : n = 0 := by simpa using hn
    subst hm0
    subst hn0
    simp [toBE, bytesLt]
  | succ k ih =>
    have hpos : 0 < (256 : Nat) ^ k := Nat.pos_pow_of_pos k (by norm_num)
    have hq1 : m / 256 ^ k < 256 := by
      rw [Nat.div_lt_iff_lt_mul hpos]
      calc m < 256 ^ (k + 1) := hm
        _ = 256 * 256 ^ k := by ring
    have hq2 : n / 256 ^ k < 256 := by
      rw [Nat.div_lt_iff_lt_mul hpos]
      calc n < 256 ^ (k + 1) := hn
        _ = 256 * 256 ^ k := by ring
    simp only [toBE, bytesLt, Nat.mod_eq_of_lt hq1, Nat.mod_eq_of_lt hq2,
      Bool.or_eq_true, Bool.and_eq_true, decide_eq_true_eq, beq_iff_eq]
    rcases Nat.lt_trichotomy (m / 256 ^ k) (n / 256 ^ k) with hlt | heq | hgt
    · have hmn : m < n := Nat.lt_of_div_lt_div hlt
      simp [hlt, hmn]
    · have e1 := Nat.div_add_mod m (256 ^ k)
      have e2 := Nat.div_add_mod n (256 ^ k)
      rw [← toBE_mod k m, ← toBE_mod k n]
      rw [ih (m % 256 ^ k) (n % 256 ^ k) (Nat.mod_lt m hpos)
        (Nat.mod_lt n hpos)]
      rw [heq] at e1
      constructor
      · intro hc
        rcases hc with hc | hc
        · omega
        · omega
      · intro hmn
        right
        exact ⟨heq, by omega⟩
    · have hnm : n < m := Nat.lt_of_div_lt_div hgt
      have h1 : ¬ m / 256 ^ k < n / 256 ^ k := by omega
      have h2 : ¬ m / 256 ^ k = n / 256 ^ k := by omega
      simp [h1, h2]
      omega

theorem findTxAmongHints_found (db : TxLookupDB) (txHash k : List Nat)
    (stx : StoredTx) (ks : List (List Nat)) (hk : k ∈ ks)
    (hs : lookupAssoc db.txstore k = some stx) (hh : stx.hash = txHash) :
    ∃ k' stx', findTxAmongHints db txHash ks = some (k', stx') ∧
      stx'.hash = txHash ∧ lookupAssoc db.txstore k' = some stx' := by
  induction ks with
  | nil => cases hk
  | cons k0 rest ih =>
    cases hmem : lookupAssoc db.txstore k0 with
    | some stx0 =>
      by_cases hh0 : stx0.hash = txHash
      · exact ⟨k0, stx0, by simp [findTxAmongHints, hmem, hh0], hh0, hmem⟩
      · have hk' : k ∈ rest := by
          rcases List.mem_cons.mp hk with he | ht
          · subst he
            rw [hmem] at hs
            injection hs with e
            subst e
            exact absurd hh hh0
          · exact ht
        obtain ⟨k', stx', h1, h2, h3⟩ := ih hk'
        exact ⟨k', stx', by simp [findTxAmongHints, hmem, hh0, h1], h2, h3⟩
    | none =>
      have hk' : k ∈ rest := by
        rcases List.mem_cons.mp hk with he | ht
        · subst he
          rw [hmem] at hs
          cases hs
        · exact ht
      obtain ⟨k', stx', h1, h2, h3⟩ := ih hk'
      exact ⟨k', stx', by simp [findTxAmongHints, hmem, h1], h2, h3⟩

theorem findTxAmongHints_none (db : TxLookupDB) (txHash : List Nat)
    (hmiss : ∀ p ∈ db.txstore, p.2.hash ≠ txHash) (ks : List (List Nat)) :
    findTxAmongHints db txHash ks = none := by
  induction ks with
  | nil => rfl
  | cons k0 rest ih =>
    cases hmem : lookupAssoc db.txstore k0 with
    | some stx0 =>
      have hne : stx0.hash ≠ txHash :=
        hmiss (k0, stx0) (lookupAssoc_mem _ _ _ hmem)
      simp [findTxAmongHints, hmem, hne, ih]
    | none => simp [findTxAmongHints, hmem, ih]

/-! ## Claim theorems -/

/-- Claim C1, counterexample: in Supernode mode `beginDBTransaction` with
`db = HEADERS` does not open the transaction on the separate HEADERS
environment, contradicting the claim that the Supernode folding rule is
honored; at the concrete state `superDbExample` the transaction lands on
the BLKDATA environment handle instead. -/
theorem beginDBTransaction_super_headers_cex :
    ¬ ((superDbExample.beginDBTransaction HEADERS
        LMDB_Mode.ReadOnly).env = superDbExample.dbEnv_ HEADERS) := by
  decide

/-- Claim C1, amended: in Supernode mode `beginDBTransaction` opens the
transaction on the BLKDATA environment for every selector, HEADERS
included; in every non-Supernode mode it opens it on `dbEnv_[db]`.  The
requested mode is passed through unchanged. -/
theorem beginDBTransaction_env_dispatch (L : LMDBBlockDatabase)
    (db : DB_SELECT) (mode : LMDB_Mode) :
    (L.armoryDbType_ = ARMORY_DB_SUPER →
      L.beginDBTransaction db mode = ⟨L.dbEnv_ BLKDATA, mode⟩) ∧
    (L.armoryDbType_ ≠ ARMORY_DB_SUPER →
      L.beginDBTransaction db mode = ⟨L.dbEnv_ db, mode⟩) := by
  constructor <;> intro h <;>
    simp [LMDBBlockDatabase.beginDBTransaction, h]

/-- Witness for the amended claim C1 at a concrete Supernode state and
`db = HEADERS`. -/
theorem beginDBTransaction_env_dispatch_witness :
    superDbExample.armoryDbType_ = ARMORY_DB_SUPER ∧
      superDbExample.beginDBTransaction HEADERS LMDB_Mode.ReadOnly =
        ⟨superDbExample.dbEnv_ BLKDATA, LMDB_Mode.ReadOnly⟩ :=
  ⟨rfl, (beginDBTransaction_env_dispatch superDbExample HEADERS
    LMDB_Mode.ReadOnly).1 rfl⟩

/-- Claim C2: `getDbSelect` maps HEADERS to HEADERS in every mode; any
other selector maps to BLKDATA in Supernode mode and to itself in every
other mode. -/
theorem getDbSelect_folding (L : LMDBBlockDatabase) (dbs : DB_SELECT) :
    (dbs = HEADERS → L.getDbSelect dbs = HEADERS) ∧
    (dbs ≠ HEADERS → L.armoryDbType_ = ARMORY_DB_SUPER →
      L.getDbSelect dbs = BLKDATA) ∧
    (dbs ≠ HEADERS → L.armoryDbType_ ≠ ARMORY_DB_SUPER →
      L.getDbSelect dbs = dbs) := by
  refine ⟨fun h => ?_, fun h1 h2 => ?_, fun h1 h2 => ?_⟩
  · simp [LMDBBlockDatabase.getDbSelect, h]
  · simp [LMDBBlockDatabase.getDbSelect, h1, h2]
  · simp [LMDBBlockDatabase.getDbSelect, h1, h2]

/-- Witness for claim C2 at a concrete Supernode state and
`dbs = HISTORY`. -/
theorem getDbSelect_folding_witness :
    (HISTORY ≠ HEADERS ∧ superDbExample.armoryDbType_ = ARMORY_DB_SUPER) ∧
      superDbExample.getDbSelect HISTORY = BLKDATA :=
  ⟨⟨by decide, rfl⟩,
    (getDbSelect_folding superDbExample HISTORY).2.1 (by decide) rfl⟩

/-- Claim C10: `getIterator` returns the iterator of the store selected by
the literal argument `db`, without applying the Supernode folding rule; in
particular in Supernode mode `getIterator HISTORY` ranges over the HISTORY
store even though `getDbSelect HISTORY` folds to BLKDATA. -/
theorem getIterator_no_folding (L : LMDBBlockDatabase) (db : DB_SELECT) :
    L.getIterator db = L.dbs_ db ∧
    (L.armoryDbType_ = ARMORY_DB_SUPER →
      L.getIterator HISTORY = L.dbs_ HISTORY ∧
        L.getDbSelect HISTORY = BLKDATA) := by
  refine ⟨rfl, fun h => ⟨rfl, ?_⟩⟩
  simp [LMDBBlockDatabase.getDbSelect, h]

/-- Witness for claim C10 at a concrete Supernode state whose HISTORY and
BLKDATA store handles differ. -/
theorem getIterator_no_folding_witness :
    superDbExample.armoryDbType_ = ARMORY_DB_SUPER ∧
      (superDbExample.getIterator HISTORY = superDbExample.dbs_ HISTORY ∧
        superDbExample.getDbSelect HISTORY = BLKDATA) :=
  ⟨rfl, (getIterator_no_folding superDbExample HISTORY).2 rfl⟩

/-- Claim C8: `resetReaders` only resets the two reader positions to 0; the
cursor, the current key and value, the readers' underlying slices and the
dirty flag are untouched, and the operation is idempotent. -/
theorem resetReaders_only_positions (it : LDBIter) :
    it.resetReaders.iter_ = it.iter_ ∧
    it.resetReaders.currKey_ = it.currKey_ ∧
    it.resetReaders.currValue_ = it.currValue_ ∧
    it.resetReaders.isDirty_ = it.isDirty_ ∧
    it.resetReaders.currKeyReader_.bdRef_ = it.currKeyReader_.bdRef_ ∧
    it.resetReaders.currValueReader_.bdRef_ =
      it.currValueReader_.bdRef_ ∧
    it.resetReaders.currKeyReader_.pos_ = 0 ∧
    it.resetReaders.currValueReader_.pos_ = 0 ∧
    it.resetReaders.resetReaders = it.resetReaders := by
  simp [LDBIter.resetReaders, BinaryRefReader.resetPosition]

/-- Claim C7: when a valid dupID is already recorded for a height,
`setValidDupIDForHeight` with overwrite = false is a no-op: the whole
state (cache and persistent mirror) is unchanged and a subsequent
`getValidDupIDForHeight` still returns the pre-existing value. -/
theorem setValidDupID_noop (s : DupIDState) (h d v : Nat)
    (hv : getValidDupIDForHeight s h = some v) :
    setValidDupIDForHeight s h d false = s ∧
    getValidDupIDForHeight (setValidDupIDForHeight s h d false) h =
      some v := by
  have hsome : (getValidDupIDForHeight s h).isSome = true := by
    rw [hv]
    rfl
  have hset : setValidDupIDForHeight s h d false = s := by
    simp [setValidDupIDForHeight, hsome]
  exact ⟨hset, by rw [hset, hv]⟩

/-- Witness for claim C7: height 100 already has dupID 1 recorded; setting
dupID 7 without overwrite changes nothing. -/
theorem setValidDupID_noop_witness :
    getValidDupIDForHeight dupEx 100 = some 1 ∧
      (setValidDupIDForHeight dupEx 100 7 false = dupEx ∧
        getValidDupIDForHeight
          (setValidDupIDForHeight dupEx 100 7 false) 100 = some 1) :=
  ⟨by decide, setValidDupID_noop dupEx 100 7 1 (by decide)⟩

/-- Claim C5: for a tx hash whose transaction is stored and hinted in its
4-byte prefix bucket, `getStoredTx_byHash` succeeds and the returned
transaction is a stored one whose full hash equals the query hash, even in
the presence of other candidates sharing the prefix; candidates are
compared by full hash and the first match wins. -/
theorem getStoredTx_byHash_fullhash (db : TxLookupDB)
    (txHash k : List Nat) (stx : StoredTx)
    (hk : k ∈ getHintsForTxHash db txHash)
    (hs : lookupAssoc db.txstore k = some stx)
    (hh : stx.hash = txHash) :
    ∃ k' stx', getStoredTx_byHash db txHash = some (k', stx') ∧
      stx'.hash = txHash ∧ lookupAssoc db.txstore k' = some stx' := by
  unfold getStoredTx_byHash
  exact findTxAmongHints_found db txHash k stx _ hk hs hh

/-- Witness for claim C5: two stored txs share the 4-byte prefix bucket;
looking up the second full hash still yields a stored tx with exactly that
hash. -/
theorem getStoredTx_byHash_fullhash_witness :
    ([0, 0, 0, 0, 0, 2] ∈ getHintsForTxHash txDbEx collB ∧
      lookupAssoc txDbEx.txstore [0, 0, 0, 0, 0, 2] = some stxCollB ∧
      stxCollB.hash = collB) ∧
    (∃ k' stx', getStoredTx_byHash txDbEx collB = some (k', stx') ∧
      stx'.hash = collB ∧ lookupAssoc txDbEx.txstore k' = some stx') :=
  ⟨⟨by decide, by decide, by decide⟩,
    getStoredTx_byHash_fullhash txDbEx collB [0, 0, 0, 0, 0, 2] stxCollB
      (by decide) (by decide) (by decide)⟩

/-- Claim C6: lookups with an absent key recover locally: `getBareHeader`
returns false leaving the out-argument as it was, and when no stored tx
has the queried hash, `getStoredTx_byHash` finds nothing and its
out-parameter convention returns false leaving both out-arguments as they
were. -/
theorem lookup_miss_returns_false :
    (∀ (hdb : HeadersDB) (sbh : StoredHeader) (hgt dup : Nat),
      lookupAssoc hdb.headersByHgtDup (hgt, dup) = none →
      getBareHeader hdb sbh hgt dup = (false, sbh)) ∧
    (∀ (db : TxLookupDB) (txHash : List Nat) (stx0 : StoredTx)
        (key0 : List Nat),
      (∀ p ∈ db.txstore, p.2.hash ≠ txHash) →
      getStoredTx_byHash db txHash = none ∧
      getStoredTx_byHash_out db txHash stx0 key0 =
        (false, stx0, key0)) := by
  constructor
  · intro hdb sbh hgt dup hmiss
    simp [getBareHeader, hmiss]
  · intro db txHash stx0 key0 hmiss
    have hnone : getStoredTx_byHash db txHash = none := by
      unfold getStoredTx_byHash
      exact findTxAmongHints_none db txHash hmiss _
    exact ⟨hnone, by simp [getStoredTx_byHash_out, hnone]⟩

/-- Witness for claim C6: a header lookup at an unoccupied (height, dup)
slot and a tx lookup for a hash no stored tx has. -/
theorem lookup_miss_returns_false_witness :
    (lookupAssoc hdbEx.headersByHgtDup (4, 0) = none ∧
      getBareHeader hdbEx shdrEx 4 0 = (false, shdrEx)) ∧
    ((∀ p ∈ txDbEx.txstore, p.2.hash ≠ List.replicate 32 99) ∧
      (getStoredTx_byHash txDbEx (List.replicate 32 99) = none ∧
        getStoredTx_byHash_out txDbEx (List.replicate 32 99) stxCollA [] =
          (false, stxCollA, []))) :=
  ⟨⟨by decide, lookup_miss_returns_false.1 hdbEx shdrEx 4 0 (by decide)⟩,
    ⟨by decide, lookup_miss_returns_false.2 txDbEx (List.replicate 32 99)
      stxCollA [] (by decide)⟩⟩

/-- Claim C3: for every representable value of each stored entity type,
parsing its serialization yields the value back with no bytes left over. -/
theorem stored_roundtrip :
    (∀ x : StoredHeader, wfStoredHeader x = true →
      parseStoredHeader (serStoredHeader x) = some (x, [])) ∧
    (∀ x : StoredTx, wfStoredTx x = true →
      parseStoredTx (serStoredTx x) = some (x, [])) ∧
    (∀ x : StoredTxOut, wfStoredTxOut x = true →
      parseStoredTxOut (serStoredTxOut x) = some (x, [])) ∧
    (∀ x : StoredScriptHistory, wfStoredScriptHistory x = true →
      parseStoredScriptHistory (serStoredScriptHistory x) = some (x, [])) ∧
    (∀ x : StoredSubHistory, wfStoredSubHistory x = true →
      parseStoredSubHistory (serStoredSubHistory x) = some (x, [])) ∧
    (∀ x : StoredUndoData, wfStoredUndoData x = true →
      parseStoredUndoData (serStoredUndoData x) = some (x, [])) ∧
    (∀ x : StoredTxHints, wfStoredTxHints x = true →
      parseStoredTxHints (serStoredTxHints x) = some (x, [])) ∧
    (∀ x : StoredHeadHgtList, wfStoredHeadHgtList x = true →
      parseStoredHeadHgtList (serStoredHeadHgtList x) = some (x, [])) ∧
    (∀ x : StoredDBInfo, wfStoredDBInfo x = true →
      parseStoredDBInfo (serStoredDBInfo x) = some (x, [])) := by
  refine ⟨?_, ?_, ?_, ?_, ?_, ?_, ?_, ?_, ?_⟩ <;> intro x h
  · simpa using parseStoredHeader_append x [] h
  · simpa using parseStoredTx_append x [] h
  · simpa using parseStoredTxOut_append x [] h
  · simpa using parseStoredScriptHistory_append x [] h
  · simpa using parseStoredSubHistory_append x [] h
  · simpa using parseStoredUndoData_append x [] h
  · simpa using parseStoredTxHints_append x [] h
  · simpa using parseStoredHeadHgtList_append x [] h
  · simpa using parseStoredDBInfo_append x [] h

/-- Witness for claim C3: one concrete representable value per entity
(with nested tx and txout maps populated where the type has them),
round-tripped. -/
theorem stored_roundtrip_witness :
    (wfStoredHeader shdrEx = true ∧
      parseStoredHeader (serStoredHeader shdrEx) = some (shdrEx, [])) ∧
    (wfStoredTx stxEx = true ∧
      parseStoredTx (serStoredTx stxEx) = some (stxEx, [])) ∧
    (wfStoredTxOut stxoEx = true ∧
      parseStoredTxOut (serStoredTxOut stxoEx) = some (stxoEx, [])) ∧
    (wfStoredScriptHistory sshEx = true ∧
      parseStoredScriptHistory (serStoredScriptHistory sshEx) =
        some (sshEx, [])) ∧
    (wfStoredSubHistory subEx = true ∧
      parseStoredSubHistory (serStoredSubHistory subEx) =
        some (subEx, [])) ∧
    (wfStoredUndoData sudEx = true ∧
      parseStoredUndoData (serStoredUndoData sudEx) = some (sudEx, [])) ∧
    (wfStoredTxHints hintsEx = true ∧
      parseStoredTxHints (serStoredTxHints hintsEx) =
        some (hintsEx, [])) ∧
    (wfStoredHeadHgtList hhlEx = true ∧
      parseStoredHeadHgtList (serStoredHeadHgtList hhlEx) =
        some (hhlEx, [])) ∧
    (wfStoredDBInfo sdbiEx = true ∧
      parseStoredDBInfo (serStoredDBInfo sdbiEx) = some (sdbiEx, [])) :=
  ⟨⟨by decide, stored_roundtrip.1 shdrEx (by decide)⟩,
    ⟨by decide, stored_roundtrip.2.1 stxEx (by decide)⟩,
    ⟨by decide, stored_roundtrip.2.2.1 stxoEx (by decide)⟩,
    ⟨by decide, stored_roundtrip.2.2.2.1 sshEx (by decide)⟩,
    ⟨by decide, stored_roundtrip.2.2.2.2.1 subEx (by decide)⟩,
    ⟨by decide, stored_roundtrip.2.2.2.2.2.1 sudEx (by decide)⟩,
    ⟨by decide, stored_roundtrip.2.2.2.2.2.2.1 hintsEx (by decide)⟩,
    ⟨by decide, stored_roundtrip.2.2.2.2.2.2.2.1 hhlEx (by decide)⟩,
    ⟨by decide, stored_roundtrip.2.2.2.2.2.2.2.2 sdbiEx (by decide)⟩⟩

/-- Claim C4, counterexample: with a 32-bit height the big-endian key
encoding is not order-preserving, because HGTX packs the height into 24
bits; at height 2^24 the packed word overflows to 0, so the encoded key
compares below the key of (height 0, dupID 1) although the coordinates
compare the other way. -/
theorem encodeKey_order_cex :
    ¬ ((bytesLt (encodeKey (2 ^ 24) 0 0 0) (encodeKey 0 1 0 0) = true) ↔
      coordLt (2 ^ 24, 0, 0, 0) (0, 1, 0, 0) = true) := by
  decide

/-- Claim C4, amended: restricted to coordinates whose height fits the 24
bits HGTX reserves for it (and dupID, txIdx, txOutIdx within their 8- and
16-bit ranges), the big-endian composite key encoding is strictly
order-preserving for the height, dupID, txIdx, txOutIdx lexicographic
order. -/
theorem encodeKey_order (h1 d1 i1 o1 h2 d2 i2 o2 : Nat)
    (hh1 : h1 < 2 ^ 24) (hd1 : d1 < 256) (hi1 : i1 < 2 ^ 16)
    (ho1 : o1 < 2 ^ 16) (hh2 : h2 < 2 ^ 24) (hd2 : d2 < 256)
    (hi2 : i2 < 2 ^ 16) (ho2 : o2 < 2 ^ 16) :
    (bytesLt (encodeKey h1 d1 i1 o1) (encodeKey h2 d2 i2 o2) = true) ↔
      coordLt (h1, d1, i1, o1) (h2, d2, i2, o2) = true := by
  have hkey : ∀ h d i o : Nat, h < 2 ^ 24 → d < 256 → i < 2 ^ 16 →
      o < 2 ^ 16 →
      encodeKey h d i o =
        toBE 8 (((h * 256 + d) * 256 ^ 2 + i) * 256 ^ 2 + o) := by
    intro h d i o hh hd hi ho
    have hmod : (h * 256 + d) % 2 ^ 32 = h * 256 + d :=
      Nat.mod_eq_of_lt (by omega)
    have hi' : i < 256 ^ 2 := by omega
    have ho' : o < 256 ^ 2 := by omega
    unfold encodeKey heightAndDupToHgtx
    rw [hmod, toBE_append 4 2 i (h * 256 + d) hi',
      toBE_append 6 2 o ((h * 256 + d) * 256 ^ 2 + i) ho']
  rw [hkey h1 d1 i1 o1 hh1 hd1 hi1 ho1, hkey h2 d2 i2 o2 hh2 hd2 hi2 ho2]
  rw [bytesLt_toBE 8 _ _ (by omega) (by omega)]
  simp only [coordLt, Bool.or_eq_true, Bool.and_eq_true,
    decide_eq_true_eq, beq_iff_eq]
  omega

/-- Witness for the amended claim C4: heights 1 and 2 with zero lower
coordinates compare consistently. -/
theorem encodeKey_order_witness :
    ((1 : Nat) < 2 ^ 24 ∧ (0 : Nat) < 256 ∧ (0 : Nat) < 2 ^ 16 ∧
      (0 : Nat) < 2 ^ 16 ∧ (2 : Nat) < 2 ^ 24 ∧ (0 : Nat) < 256 ∧
      (0 : Nat) < 2 ^ 16 ∧ (0 : Nat) < 2 ^ 16) ∧
    ((bytesLt (encodeKey 1 0 0 0) (encodeKey 2 0 0 0) = true) ↔
      coordLt (1, 0, 0, 0) (2, 0, 0, 0) = true) :=
  ⟨⟨by decide, by decide, by decide, by decide, by decide, by decide,
    by decide, by decide⟩,
    encodeKey_order 1 0 0 0 2 0 0 0 (by decide) (by decide) (by decide)
      (by decide) (by decide) (by decide) (by decide) (by decide)⟩
